import Mathlib

/-!
Verification development for the ztpserver topology module
(`ztpserver/topology.py`).

The Python source is shallowly embedded as executable Lean definitions:

* dictionaries (`dict`, `OrderedDict`, `OrderedCollection`) become
  association lists (`List (key × value)`) with unique keys in every state
  reachable from the source constructors;
* Python `None` becomes `Option.none`;
* in-place mutation becomes explicit state passing: a method that mutates the
  caller-supplied `variables` dictionary returns the updated map next to its
  result, and the file-backed resource pool is threaded as a value;
* a method that can raise an uncaught Python exception returns
  `Except PyErr _`; the error constructors name the Python exception class.

Notational conventions: the quote characters of the `FUNC_RE` regular
expression character class are written with `Char.ofNat` (39 = single quote,
34 = double quote).
-/

namespace ZTP

/-- Equality of `Except` results is decidable (used to evaluate the model on
concrete inputs). -/
instance {ε α : Type} [DecidableEq ε] [DecidableEq α] :
    DecidableEq (Except ε α) := fun x y =>
  match x, y with
  | .ok a, .ok b =>
    if h : a = b then .isTrue (by rw [h])
    else .isFalse (by intro he; cases he; exact h rfl)
  | .error a, .error b =>
    if h : a = b then .isTrue (by rw [h])
    else .isFalse (by intro he; cases he; exact h rfl)
  | .ok _, .error _ => .isFalse (by intro he; cases he)
  | .error _, .ok _ => .isFalse (by intro he; cases he)

/-- `s.startswith(pre)`, evaluated on the character lists (kernel-reducible
rendering of `String.startsWith`). -/
def pyStartsWith (s pre : String) : Bool := pre.toList.isPrefixOf s.toList

/-- Split a character list at every occurrence of a separator character. -/
def splitChar (c : Char) : List Char → List (List Char)
  | [] => [[]]
  | x :: rest =>
    if x = c then [] :: splitChar c rest
    else
      match splitChar c rest with
      | h :: t => (x :: h) :: t
      | [] => [[x]]

/-- Python `s.split(sep)` for a one-character separator (all the splits the
source performs), evaluated on the character lists. -/
def pySplit (sep : Char) (s : String) : List String :=
  (splitChar sep s.toList).map List.asString

/-- Python `int(s)` restricted to plain digit strings; any other argument
raises `ValueError` (signed and whitespace-padded forms never reach the
modelled call sites without a prior error). -/
def pyInt (s : String) : Option Nat :=
  let cs := s.toList
  if cs ≠ [] ∧ cs.all Char.isDigit then
    some (cs.foldl (fun a c => a * 10 + (c.toNat - 48)) 0)
  else none

/-- The Python exceptions that can escape the modelled code paths:
`TypeError` (e.g. regex split applied to a non-string, missing constructor
argument), `ValueError` (tuple unpacking of a split with the wrong number of
parts, `int()` on a non-numeric string), and `AttributeError`
(`getattr(Functions, name)` for an unknown matching-function name). -/
inductive PyErr where
  | typeError
  | valueError
  | attributeError
deriving DecidableEq, Repr

/-- Error kinds of the resource pool (`DataFileError` raised by
`Resources.load` / `Resources.dump`, and `ResourcesError` raised on pool
exhaustion in `Resources.allocate`). -/
inductive ResErr where
  | dataFileError
  | poolExhausted
deriving DecidableEq, Repr

/-- `Node.Neighbor = collections.namedtuple("Neighbor", ['device', 'port'])`. -/
structure Neighbor where
  device : String
  port : String
deriving DecidableEq, Repr

/-- The neighbor table of a `Node`: `OrderedCollection` mapping an interface
name to the list of observed neighbors, modelled as an ordered association
list. -/
abbrev NbrTable := List (String × List Neighbor)

/-- Keys of a neighbor table (`neighbors()` / `neighbors.keys()`). -/
def tblKeys (t : NbrTable) : List String := t.map (fun e => e.1)

/-- Python `interface in neighbors`. -/
def tblMem (t : NbrTable) (k : String) : Bool := (tblKeys t).contains k

/-- `neighbors(interface)`: the neighbor list stored under a key.  In the
source the key is always present at every call site (candidates are filtered
by membership first); absent keys default to the empty list here. -/
def tblGet (t : NbrTable) (k : String) : List Neighbor :=
  (((t.find? (fun e => decide (e.1 = k))).map (fun e => e.2)).getD [])

/-- `del neighbors[match]`. -/
def tblErase (t : NbrTable) (k : String) : NbrTable :=
  t.filter (fun e => decide (e.1 ≠ k))

/-- `for match in matches: del neighbors[match]`. -/
def tblEraseAll (t : NbrTable) (ks : List String) : NbrTable :=
  ks.foldl tblErase t

/-- A Python `dict` of string variables, modelled as an association list. -/
abbrev VarMap := List (String × String)

/-- `variables.get(key)`. -/
def varGet (m : VarMap) (k : String) : Option String :=
  (m.find? (fun kv => decide (kv.1 = k))).map (fun kv => kv.2)

/-- `variables[key] = value`: overwrite the existing entry in place, append
otherwise (dictionary assignment). -/
def varSet (m : VarMap) (k v : String) : VarMap :=
  if m.any (fun kv => decide (kv.1 = k)) then
    m.map (fun kv => if kv.1 = k then (k, v) else kv)
  else m ++ [(k, v)]

/-- `base.update(upd)`: merge `upd` into `base`, `upd` winning on key
collision. -/
def varUpdate (base upd : VarMap) : VarMap :=
  upd.foldl (fun acc kv => varSet acc kv.1 kv.2) base

/-- The observed device.  Only the fields the modelled operations consume are
carried (`model`, `serialnumber` and `version` are never read by matching or
allocation). -/
structure Node where
  systemmac : Option String
  neighbors : NbrTable
deriving DecidableEq, Repr

/-! ## Matching functions (`class Functions`) -/

/-- Python substring test `needle in hay` on character lists: `needle` occurs
contiguously in `hay` (the empty needle always occurs). -/
def inclAux : List Char → List Char → Bool
  | needle, [] => needle.isEmpty
  | needle, c :: t => needle.isPrefixOf (c :: t) || inclAux needle t

namespace Functions

/-- `Functions.exact(arg, value)`. -/
def exact (arg value : String) : Bool := arg = value

/-- `Functions.regex(arg, value)` is `re.match(arg, value)`.  The full Python
regular-expression engine is out of scope; the model covers the
metacharacter-free patterns the engine is used with, for which `re.match`
succeeds exactly when `value` starts with the literal `arg`. -/
def regex (arg value : String) : Bool := pyStartsWith value arg

/-- `Functions.includes(arg, value)`: Python substring test `arg in value`. -/
def includes (arg value : String) : Bool :=
  inclAux arg.toList value.toList

/-- `Functions.excludes(arg, value)`: `arg not in value`. -/
def excludes (arg value : String) : Bool := !(includes arg value)

end Functions

/-! ## `FUNC_RE` — the function-call syntax `name('arg')`

`FUNC_RE = (?P<function>\w+)(?=\(\S+\))\([\'|\"](?P<arg>.+?)[\'|\"]\)`

`re.match` anchors at the start only: the maximal `\w+` prefix must be
followed by `(` + at least one non-space character + `)` (lookahead), and is
then consumed as `(`, one quote-class character, a shortest non-empty run of
non-newline characters, a quote-class character and `)`.  Trailing text is
ignored.  The quote class `[\'|\"]` is the character set {single quote, `|`,
double quote}. -/

/-- One `\w` character. -/
def isWordChar (c : Char) : Bool := c.isAlphanum || c = '_'

/-- One character of the class `[\'|\"]`. -/
def isQuoteBar (c : Char) : Bool :=
  c = Char.ofNat 39 || c = '|' || c = Char.ofNat 34

/-- The body of the lookahead `\S+\)`: scan non-space characters, closing at
some `)` after at least one consumed character (`seen`). -/
def lookScan : List Char → Bool → Bool
  | [], _ => false
  | c :: rest, seen => (c = ')' && seen) || (!c.isWhitespace && lookScan rest true)

/-- The lookahead `(?=\(\S+\))`. -/
def lookaheadOk : List Char → Bool
  | '(' :: t => lookScan t false
  | _ => false

/-- The lazy group `(?P<arg>.+?)` followed by `[\'|\"]\)`: the shortest
non-empty newline-free prefix whose next two characters are a quote-class
character and `)`. -/
def lazyArg (acc : List Char) : List Char → Option String
  | [] => none
  | c :: rest =>
    if c = '\n' then none
    else
      match rest with
      | q :: ')' :: _ =>
        if isQuoteBar q then some (acc ++ [c]).asString
        else lazyArg (acc ++ [c]) rest
      | _ => lazyArg (acc ++ [c]) rest

/-- `FUNC_RE.match(s)`: `some (function, arg)` on a match, `none` otherwise.
A shorter `\w+` prefix can never satisfy the lookahead (the following
character would be a word character, not `(`), so only the maximal prefix is
tried. -/
def funcMatch (s : String) : Option (String × String) :=
  let cs := s.toList
  let w := cs.takeWhile isWordChar
  if w.isEmpty then none
  else
    let rest := cs.drop w.length
    if lookaheadOk rest then
      match rest with
      | '(' :: q :: tail =>
        if isQuoteBar q then (lazyArg [] tail).map (fun a => (String.mk w, a))
        else none
      | _ => none
    else none

/-! ## Interface ranges (`InterfacePattern.range`) -/

/-- Piece `[1]` of `re.split("[a-zA-Z]*", s)` for a string that starts with a
letter run: the maximal non-letter segment that follows the leading letters
(empty matches do not split in Python 2). -/
def afterLetters (s : String) : String :=
  String.mk ((s.toList.dropWhile Char.isAlpha).takeWhile (fun c => !c.isAlpha))

/-- Expansion of one comma-separated piece of an interface range: `a-b`
becomes `Ethernet a .. Ethernet b` (empty when `b < a`, like Python
`range`), any other piece is emitted as `Ethernet<piece>` verbatim.
`int()` on a non-numeric bound raises `ValueError`; `int()` is modelled for
plain digit strings (signed and padded forms never reach this code without a
prior error). -/
def expandIdx (part : String) : Except PyErr (List String) :=
  match pySplit '-' part with
  | [a] => .ok ["Ethernet" ++ a]
  | [a, b] =>
    match pyInt a, pyInt b with
    | some s, some e =>
      .ok ((List.range (e + 1 - s)).map (fun i => "Ethernet" ++ toString (s + i)))
    | _, _ => .error .valueError
  | _ => .error .valueError

/-- `InterfacePattern.range(interface_range)`. -/
def pyRange : Option String → Except PyErr (List String)
  | none => .ok []
  | some s =>
    if pyStartsWith s "Ethernet" then
      match (pySplit ',' (afterLetters s)).mapM expandIdx with
      | .error e => .error e
      | .ok ls => .ok ls.flatten
    else .ok [s]

/-! ## `InterfacePattern` -/

/-- The `tags` attribute: the source stores either the string produced by the
`device:port:tags` form or the list taken from a mapping-form spec. -/
inductive TagVal where
  | s (v : String)
  | l (v : List String)
deriving DecidableEq, Repr

/-- `tags or list()` in `InterfacePattern.__init__`: `None`, the empty string
and the empty list are falsy and replaced by the empty list. -/
def tagsOrNil : Option TagVal → TagVal
  | none => .l []
  | some (.s "") => .l []
  | some (.l []) => .l []
  | some v => v

structure InterfacePattern where
  interface : String
  interfaces : List String
  device : Option String
  port : Option String
  ports : List String
  tags : TagVal
deriving DecidableEq, Repr

/-- `InterfacePattern.__init__`: stores the raw specifiers and the expanded
ranges (`self.interfaces = self.range(interface)`,
`self.ports = self.range(port)`); a range expansion failure propagates. -/
def mkInterfacePattern (interface : String) (device port : Option String)
    (tags : Option TagVal) : Except PyErr InterfacePattern :=
  match pyRange (some interface), pyRange port with
  | .ok intfs, .ok ports =>
    .ok { interface := interface, interfaces := intfs, device := device,
          port := port, ports := ports, tags := tagsOrNil tags }
  | .error e, _ => .error e
  | _, .error e => .error e

namespace InterfacePattern

/-- `InterfacePattern.match_device(device, variables)`.  An unknown function
name makes `getattr(Functions, method)` raise `AttributeError`. -/
def match_device (ip : InterfacePattern) (vars : VarMap) (device : String) :
    Except PyErr Bool :=
  match ip.device with
  | none => .ok false
  | some d =>
    if d = "any" then .ok true
    else
      -- `pattern = variables.get(self.device) or self.device`
      let pat := match varGet vars d with
                 | some v => if v = "" then d else v
                 | none => d
      match funcMatch pat with
      | some (f, arg) =>
        if f = "exact" then .ok (Functions.exact arg device)
        else if f = "regex" then .ok (Functions.regex arg device)
        else if f = "includes" then .ok (Functions.includes arg device)
        else if f = "excludes" then .ok (Functions.excludes arg device)
        else .error .attributeError
      | none => .ok (Functions.exact pat device)

/-- `InterfacePattern.match_port(port)`. -/
def match_port (ip : InterfacePattern) (port : String) : Bool :=
  if (ip.port = none && ip.device = some "any") || ip.port = some "any" then true
  else if ip.port = none && ip.device = none then false
  else ip.ports.contains port

/-- The inner loop of `match_neighbors`: scan the neighbors recorded on one
interface until the first pair accepted by `match_device and match_port`. -/
def scanNbrs (ip : InterfacePattern) (vars : VarMap) :
    List Neighbor → Except PyErr Bool
  | [] => .ok false
  | nb :: rest =>
    match ip.match_device vars nb.device with
    | .error e => .error e
    | .ok d =>
      if d && ip.match_port nb.port then .ok true
      else ip.scanNbrs vars rest

/-- The candidate interfaces of `match_neighbors`: every key of the working
table for the wildcard specifier, otherwise the declared expanded names
present in the working table. -/
def candidates (ip : InterfacePattern) (nbrs : NbrTable) : List String :=
  if ip.interface = "any" then tblKeys nbrs
  else ip.interfaces.filter (fun x => (tblKeys nbrs).contains x)

/-- The outer loop of `match_neighbors`: collect, in order, every candidate
interface on which some neighbor was accepted. -/
def collectMatches (ip : InterfacePattern) (vars : VarMap) (nbrs : NbrTable) :
    List String → Except PyErr (List String)
  | [] => .ok []
  | i :: rest =>
    match ip.scanNbrs vars (tblGet nbrs i) with
    | .error e => .error e
    | .ok b =>
      match ip.collectMatches vars nbrs rest with
      | .error e => .error e
      | .ok ms => .ok (if b then i :: ms else ms)

/-- `InterfacePattern.match_neighbors(neighbors, variables)`:

* candidate interfaces as in `candidates`;
* `matches` = candidates with an accepting neighbor (first accepting neighbor
  wins per interface);
* `if matches != interfaces and self.interface != 'any': matches = list()`;
* `return matches[0:1]`. -/
def match_neighbors (ip : InterfacePattern) (nbrs : NbrTable) (vars : VarMap) :
    Except PyErr (List String) :=
  match ip.collectMatches vars nbrs (ip.candidates nbrs) with
  | .error e => .error e
  | .ok ms =>
    .ok ((if ms ≠ ip.candidates nbrs ∧ ip.interface ≠ "any" then [] else ms).take 1)

end InterfacePattern

/-! ## `Pattern` -/

structure Pattern where
  name : String
  definition : String
  node : Option String
  vars : VarMap
  interfaces : List InterfacePattern
deriving DecidableEq, Repr

namespace Pattern

/-- The loop body of `Pattern.match_node`: the current working copy of the
neighbor table and the caller-supplied `variables` dictionary (mutated in
place by `variables.update(self.variables)`) are threaded explicitly.

* a `None` device specifier returns immediately: the pattern matches exactly
  when the specifier's literal interface name is absent from the *working*
  table;
* otherwise pattern-level variables are merged into the effective map, the
  interface pattern is matched, a failure ends the pattern, and matched
  interfaces are removed from the working table. -/
def goMatch (p : Pattern) :
    List InterfacePattern → NbrTable → VarMap → (Except PyErr Bool) × VarMap
  | [], _, vars => (.ok true, vars)
  | ip :: rest, nbrs, vars =>
    if ip.device = none then
      (.ok (!(tblMem nbrs ip.interface)), vars)
    else
      match ip.match_neighbors nbrs (varUpdate vars p.vars) with
      | .error e => (.error e, varUpdate vars p.vars)
      | .ok [] => (.ok false, varUpdate vars p.vars)
      | .ok ms => goMatch p rest (tblEraseAll nbrs ms) (varUpdate vars p.vars)

/-- `Pattern.match_node(node, variables)`: runs `goMatch` on a copy of the
node's neighbor table.  The second component is the caller's `variables`
dictionary after the call (the source mutates it in place); the `Node` is
never written to. -/
def match_node (p : Pattern) (n : Node) (vars : VarMap) :
    (Except PyErr Bool) × VarMap :=
  goMatch p p.interfaces n.neighbors vars

/-- Successful processing of a prefix of the interface-pattern list: the
working table and variables state `goMatch` reaches after consuming every
listed interface pattern, provided none of them has a `None` device, fails
to match, or raises.  Used to state where in the working table the
`None`-device short-circuit looks. -/
def consumePre (p : Pattern) :
    List InterfacePattern → NbrTable → VarMap → Option (NbrTable × VarMap)
  | [], nbrs, vars => some (nbrs, vars)
  | ip :: rest, nbrs, vars =>
    if ip.device = none then none
    else
      match ip.match_neighbors nbrs (varUpdate vars p.vars) with
      | .error _ => none
      | .ok [] => none
      | .ok ms => consumePre p rest (tblEraseAll nbrs ms) (varUpdate vars p.vars)

end Pattern

/-! ## Parsing pattern documents (`Pattern._parse_interface` and friends) -/

/-- The raw value attached to one interface key of a pattern document: either
a plain string (`any`, `none`, or a `device:port[:tags]` form) or a mapping
with `device` / `port` / `tags` entries (an absent entry is `none`;
`dict.get` also returns `None` for an entry explicitly set to null, so the
two are identified). -/
inductive SpecVal where
  | str (s : String)
  | dict (device port : Option String) (tags : Option TagVal)
deriving DecidableEq, Repr

/-- The character class of `DEVICENAME_PARSER_RE`,
`:(?=[Ethernet|\d+(?/)(?\*)...])`: inside `[...]` every character is literal,
so the class is the set of letters of `Ethernet`, the digits, and
`| + ( ? / ) *`. -/
def devCls (c : Char) : Bool :=
  c.isDigit || c = 'E' || c = 't' || c = 'h' || c = 'e' || c = 'r' || c = 'n' ||
  c = '|' || c = '+' || c = '(' || c = '?' || c = '/' || c = ')' || c = '*'

/-- The character class of `ANYDEVICE_PARSER_RE`, `:(?=[any])`. -/
def anyCls (c : Char) : Bool := c = 'a' || c = 'n' || c = 'y'

/-- `re.split` for the two parser regexes: split at every `:` whose following
character is in the class (the lookahead leaves that character in the next
piece). -/
def splitColonAux (cls : Char → Bool) (acc : List Char) : List Char → List String
  | [] => [acc.reverse.asString]
  | ':' :: rest =>
    match rest with
    | d :: _ =>
      if cls d then acc.reverse.asString :: splitColonAux cls [] rest
      else splitColonAux cls (':' :: acc) rest
    | [] => [(':' :: acc).reverse.asString]
  | c :: rest => splitColonAux cls (c :: acc) rest

def splitColon (cls : Char → Bool) (s : String) : List String :=
  splitColonAux cls [] s.toList

/-- `Pattern._parse_interface(interface, values)` with the pattern's own
`variables` in scope.  Returns the argument tuple handed to
`InterfacePattern`; Python errors are uncaught here and propagate:

* a mapping value whose device is neither `any` nor `none` reaches the regex
  split, which raises `TypeError` on a non-string;
* a string value that neither regex splits into exactly two parts raises
  `ValueError` (tuple unpacking), as does a port piece with two or more
  colons left. -/
def parseInterface (pvars : VarMap) (interface : String) (values : SpecVal) :
    Except PyErr (String × Option String × Option String × Option TagVal) :=
  let dev0 := match values with
              | .dict d _ _ => d
              | .str _ => none
  let parsed : Except PyErr (Option String × Option String × Option TagVal) :=
    if values = .str "any" ∨ dev0 = some "any" then
      .ok (some "any", some "any", none)
    else if values = .str "none" ∨ dev0 = some "none" then
      .ok (none, none, none)
    else
      match values with
      | .dict _ _ _ => .error .typeError
      | .str sv =>
        let two : Except PyErr (String × String) :=
          match splitColon devCls sv with
          | [d, p] => .ok (d, p)
          | _ =>
            match splitColon anyCls sv with
            | [d, p] => .ok (d, p)
            | _ => .error .valueError
        match two with
        | .error e => .error e
        | .ok (d, p) =>
          if p.toList.contains ':' then
            match pySplit ':' p with
            | [p2, t2] => .ok (some d, some p2, some (.s t2))
            | _ => .error .valueError
          else .ok (some d, some p, none)
  match parsed with
  | .error e => .error e
  | .ok (device, port, tags) =>
    -- `if device not in [None, 'any'] and device in self.variables`
    let device := match device with
                  | some dv =>
                    if dv ≠ "any" then
                      match varGet pvars dv with
                      | some v => some v
                      | none => some dv
                    else some dv
                  | none => none
    .ok (interface, device, port, tags)

/-- A pattern entry of a topology document.  `name` / `definition` are
`none` when the key is absent, which makes `Pattern(**pattern)` raise
`TypeError`; `node` is `none` when the `node` key is absent. -/
structure PatternDoc where
  name : Option String
  definition : Option String
  node : Option String
  vars : VarMap
  interfaces : List (String × SpecVal)
deriving DecidableEq, Repr

/-- `Pattern(**pattern)` /
`Pattern.__init__(name, definition, **kwargs)` + `add_interfaces`:
constructs the pattern, parsing every interface entry in order.  Parse
errors propagate to the caller. -/
def mkPattern (doc : PatternDoc) : Except PyErr Pattern :=
  match doc.name, doc.definition with
  | some name, some definition =>
    let rec build : List (String × SpecVal) → Except PyErr (List InterfacePattern)
      | [] => .ok []
      | (k, v) :: rest =>
        match parseInterface doc.vars k v with
        | .error e => .error e
        | .ok (intf, dev, port, tags) =>
          match mkInterfacePattern intf dev port tags with
          | .error e => .error e
          | .ok ip =>
            match build rest with
            | .error e => .error e
            | .ok ips => .ok (ip :: ips)
    match build doc.interfaces with
    | .error e => .error e
    | .ok ips =>
      .ok { name := name, definition := definition, node := doc.node,
            vars := doc.vars, interfaces := ips }
  | _, _ => .error .typeError

/-! ## Serialization (`InterfacePattern.serialize`, `Pattern.serialize`) -/

/-- `InterfacePattern.serialize`: a `None` device serializes as the string
`none` with no port entry; otherwise device and port are emitted; `tags` is
always emitted (it is never `None` after construction). -/
def InterfacePattern.serialize (ip : InterfacePattern) : SpecVal :=
  match ip.device with
  | none => .dict (some "none") none (some ip.tags)
  | some d => .dict (some d) ip.port (some ip.tags)

/-- `Pattern.serialize`: `node` is emitted only when truthy (a `None` or
empty-string binding is dropped). -/
def Pattern.serialize (p : Pattern) : PatternDoc :=
  { name := some p.name
    definition := some p.definition
    node := match p.node with
            | some s => if s = "" then none else some s
            | none => none
    vars := p.vars
    interfaces := p.interfaces.map (fun ip => (ip.interface, ip.serialize)) }

/-! ## `Topology` -/

structure Topology where
  vars : VarMap
  globals : List Pattern
  nodes : List (Option String × Pattern)
deriving DecidableEq, Repr

/-- A topology document: top-level `variables` and `patterns`. -/
structure TopoDoc where
  vars : VarMap
  patterns : List PatternDoc
deriving DecidableEq, Repr

namespace Topology

/-- `self.patterns['nodes'][obj.node] = obj`: dictionary assignment,
overwriting an existing binding for the same identity. -/
def nodesInsert (ns : List (Option String × Pattern)) (k : Option String)
    (v : Pattern) : List (Option String × Pattern) :=
  if ns.any (fun e => decide (e.1 = k)) then
    ns.map (fun e => if e.1 = k then (k, v) else e)
  else ns ++ [(k, v)]

/-- `Topology.add_pattern(pattern)`: construct the `Pattern`; a `TypeError`
is caught and the entry skipped, any other error propagates.  On success,
topology-level variables are substituted into each interface pattern's
device specifier, and the pattern is filed under its node binding (when the
`node` key was present) or appended to the global list. -/
def add_pattern (t : Topology) (doc : PatternDoc) : Except PyErr Topology :=
  match mkPattern doc with
  | .error .typeError => .ok t
  | .error e => .error e
  | .ok obj =>
    let obj := { obj with
      interfaces := obj.interfaces.map (fun ip =>
        match ip.device with
        | some d =>
          if d ≠ "any" then
            match varGet t.vars d with
            | some v => { ip with device := some v }
            | none => ip
          else ip
        | none => ip) }
    if doc.node.isSome then
      .ok { t with nodes := nodesInsert t.nodes obj.node obj }
    else
      .ok { t with globals := t.globals ++ [obj] }

/-- The pattern loop of `Topology.deserialize`. -/
def addPatterns (t : Topology) : List PatternDoc → Except PyErr Topology
  | [] => .ok t
  | d :: rest =>
    match t.add_pattern d with
    | .error e => .error e
    | .ok t2 => addPatterns t2 rest

/-- `Topology.deserialize(contents)`: replace `variables` (dropping the
reserved keys `any` and `none`), then add every pattern entry in order. -/
def deserialize (t : Topology) (doc : TopoDoc) : Except PyErr Topology :=
  let vars := doc.vars.filter (fun kv => decide (kv.1 ≠ "any" ∧ kv.1 ≠ "none"))
  addPatterns { t with vars := vars } doc.patterns

/-- The empty topology (`Topology.__init__` before `deserialize`). -/
def empty : Topology := { vars := [], globals := [], nodes := [] }

/-- `Topology.get_patterns(node)`: the single bound pattern when the node's
identity is a key of the node-pattern mapping, the global list otherwise. -/
def get_patterns (t : Topology) (n : Node) : List Pattern :=
  match t.nodes.find? (fun e => decide (e.1 = n.systemmac)) with
  | some e => [e.2]
  | none => t.globals

/-- The candidate loop of `Topology.match_node`, threading the topology's
`variables` dictionary through every `Pattern.match_node` call (the source
passes the same dictionary object to each candidate, so mutations
accumulate).  An exception from a candidate propagates; the mutations made
up to that point survive in the dictionary. -/
def matchLoop (n : Node) :
    List Pattern → VarMap → (Except PyErr (List Pattern)) × VarMap
  | [], vars => (.ok [], vars)
  | p :: rest, vars =>
    match (p.match_node n vars).1 with
    | .error e => (.error e, (p.match_node n vars).2)
    | .ok b =>
      match (matchLoop n rest (p.match_node n vars).2).1 with
      | .error e => (.error e, (matchLoop n rest (p.match_node n vars).2).2)
      | .ok ms =>
        (.ok (if b then p :: ms else ms),
         (matchLoop n rest (p.match_node n vars).2).2)

/-- `Topology.match_node(node)`: the matched patterns in evaluation order,
together with the topology object and the node object as they stand after
the call (the node is never written to; the topology's `variables`
dictionary is updated in place by the candidates). -/
def match_node (t : Topology) (n : Node) :
    (Except PyErr (List Pattern)) × Topology × Node :=
  let r := matchLoop n (t.get_patterns n) t.vars
  (r.1, { t with vars := r.2 }, n)

end Topology

/-! ## `Resources` — the file-backed pool -/

/-- A pool document: ordered mapping from allocation key to `none`
(unallocated) or the owning device identity. -/
abbrev Pool := List (String × Option String)

namespace Resources

/-- `Resources.lookup(pool, node)`: the first key whose value equals the
node's identity, or `None`. -/
def lookup (p : Pool) (n : Node) : Option String :=
  ((p.filter (fun kv => decide (kv.2 = n.systemmac))).map (fun kv => kv.1)).head?

/-- `contents[key] = node.systemmac` (the key is always present at the call
site). -/
def poolSet (p : Pool) (k : String) (v : Option String) : Pool :=
  p.map (fun kv => if kv.1 = k then (k, v) else kv)

/-- The allocation path of `Resources.allocate` after an unsuccessful
lookup: take the first unallocated key, claim it and persist the document,
or raise `ResourcesError` when none exists.  The second component is the
pool document on disk after the call. -/
def allocFresh (p : Pool) (n : Node) : (Except ResErr String) × Pool :=
  match p.find? (fun kv => kv.2.isNone) with
  | some kv => (.ok kv.1, poolSet p kv.1 n.systemmac)
  | none => (.error .poolExhausted, p)

/-- `Resources.allocate(pool, node)`: return the looked-up key when it is
truthy (Python truthiness: `None` and the empty string are falsy), allocate
a fresh key otherwise. -/
def allocate (p : Pool) (n : Node) : (Except ResErr String) × Pool :=
  match lookup p n with
  | some s => if s = "" then allocFresh p n else (.ok s, p)
  | none => allocFresh p n

end Resources

end ZTP

open ZTP

/-! # Claims

Each claim of the specification is settled by one theorem below; concrete
inputs used by witnesses and counterexamples are declared as plain
definitions first. -/

/-! ## C9 — interface-range expansion -/

/-- C9: interface-range expansion is a pure function of its input string:
`Ethernet1-3,5` expands to `[Ethernet1, Ethernet2, Ethernet3, Ethernet5]`,
and any single literal outside the `Ethernet` family expands to the
one-element sequence holding the literal unchanged. -/
theorem C9_range_expansion :
    pyRange (some "Ethernet1-3,5") =
      .ok ["Ethernet1", "Ethernet2", "Ethernet3", "Ethernet5"]
    ∧ ∀ s : String, ¬ pyStartsWith s "Ethernet" → pyRange (some s) = .ok [s] := by
  refine ⟨by decide, ?_⟩
  intro s h
  simp [pyRange, h]

/-- Witness for C9 at the literal `Management1`. -/
theorem C9_range_expansion_witness :
    ¬ pyStartsWith "Management1" "Ethernet"
    ∧ pyRange (some "Management1") = .ok ["Management1"] :=
  ⟨by decide, C9_range_expansion.2 "Management1" (by decide)⟩

/-! ## C5 — pool exhaustion -/

/-- C5: on a pool with no unallocated key and no key held by the requesting
device, `Resources.allocate` fails with the pool-exhaustion error kind — a
kind distinct from the load-failure kind — and leaves the pool document
unchanged. -/
theorem C5_pool_exhaustion (p : Pool) (n : Node)
    (h1 : ∀ kv ∈ p, kv.2 ≠ none) (h2 : ∀ kv ∈ p, kv.2 ≠ n.systemmac) :
    Resources.allocate p n = (.error .poolExhausted, p)
    ∧ ResErr.poolExhausted ≠ ResErr.dataFileError := by
  refine ⟨?_, by decide⟩
  have hl : Resources.lookup p n = none := by
    unfold Resources.lookup
    have hfil : p.filter (fun kv => decide (kv.2 = n.systemmac)) = [] := by
      rw [List.filter_eq_nil_iff]
      intro kv hkv
      simp [h2 kv hkv]
    rw [hfil]
    rfl
  have hf : p.find? (fun kv => kv.2.isNone) = none := by
    rw [List.find?_eq_none]
    intro kv hkv
    simp [Option.isNone_iff_eq_none, h1 kv hkv]
  unfold Resources.allocate
  rw [hl]
  unfold Resources.allocFresh
  rw [hf]

/-- Witness for C5 on a one-key pool fully held by another device. -/
theorem C5_pool_exhaustion_witness :
    (∀ kv ∈ [("k1", some "bb")], kv.2 ≠ (none : Option String))
    ∧ (∀ kv ∈ [("k1", some "bb")], kv.2 ≠ (Node.mk (some "aa") []).systemmac)
    ∧ Resources.allocate [("k1", some "bb")] (Node.mk (some "aa") []) =
        (.error .poolExhausted, [("k1", some "bb")]) :=
  ⟨by decide, by decide,
   (C5_pool_exhaustion [("k1", some "bb")] (Node.mk (some "aa") [])
      (by decide) (by decide)).1⟩

/-! ## C7 — serialize / re-parse round trip -/

/-- An interface pattern with a literal (non-`any`, non-`none`) device
specifier, exactly as `InterfacePattern('Ethernet1', 'spine1', 'Ethernet1')`
builds it. -/
def c7Ip : InterfacePattern :=
  { interface := "Ethernet1", interfaces := ["Ethernet1"],
    device := some "spine1", port := some "Ethernet1",
    ports := ["Ethernet1"], tags := .l [] }

/-- A pattern holding `c7Ip`. -/
def c7Pat : Pattern :=
  { name := "p", definition := "d", node := none, vars := [],
    interfaces := [c7Ip] }

/-- C7 (code bug): the round trip fails for a literal device specifier.
`c7Ip` is exactly what the constructor builds, its serialization is the
mapping `{device: spine1, port: Ethernet1, tags: []}`, and re-parsing that
serialized pattern raises `TypeError` — `_parse_interface` falls into the
string-splitting branch and applies the device:port regex to a mapping — so
the Interface Pattern list is not reproduced. -/
theorem C7_roundtrip_fails :
    mkInterfacePattern "Ethernet1" (some "spine1") (some "Ethernet1") none = .ok c7Ip
    ∧ Pattern.serialize c7Pat =
        { name := some "p", definition := some "d", node := none, vars := [],
          interfaces := [("Ethernet1",
            .dict (some "spine1") (some "Ethernet1") (some (.l [])))] }
    ∧ mkPattern (Pattern.serialize c7Pat) = .error .typeError := by
  refine ⟨by decide, by decide, by decide⟩

/-! ## C6 — malformed pattern entries -/

/-- A pattern entry whose interface specifier is an unparseable string: no
colon, so both regex splits return a single piece and tuple unpacking raises
`ValueError`. -/
def c6BadStrDoc : PatternDoc :=
  { name := some "bad", definition := some "d", node := none, vars := [],
    interfaces := [("Ethernet1", .str "foo")] }

/-- A pattern entry whose construction raises `TypeError` (missing `name`). -/
def c6BadTypeDoc : PatternDoc :=
  { name := none, definition := some "d", node := none, vars := [],
    interfaces := [] }

/-- A well-formed pattern entry. -/
def c6GoodDoc : PatternDoc :=
  { name := some "good", definition := some "d", node := none, vars := [],
    interfaces := [] }

/-- Counterexample to C6: a topology document whose first pattern entry has
the unparseable string specifier `foo` makes `deserialize` abort wholesale
with `ValueError`; the following well-formed entry is never added. -/
theorem C6_counterexample :
    Topology.deserialize Topology.empty
      { vars := [], patterns := [c6BadStrDoc, c6GoodDoc] } = .error .valueError := by
  decide

/-- C6 (amended): a malformed pattern entry is skipped — construction
continuing with the remaining entries — exactly when its failure is the
`TypeError` that `add_pattern` catches (missing required fields, or a
specifier value the regex split rejects as a non-string); a string interface
specifier that cannot be split into device and port instead raises an
uncaught `ValueError` that aborts deserialization wholesale. -/
theorem C6_typeerror_skipped (t : Topology) (d : PatternDoc)
    (docs : List PatternDoc) (h : mkPattern d = .error .typeError) :
    Topology.addPatterns t (d :: docs) = Topology.addPatterns t docs := by
  simp only [Topology.addPatterns, Topology.add_pattern, h]

/-- Witness for C6: the entry with a missing `name` raises `TypeError` and
is skipped, deserialization continuing with the remaining entries. -/
theorem C6_typeerror_skipped_witness :
    mkPattern c6BadTypeDoc = .error .typeError
    ∧ Topology.addPatterns Topology.empty [c6BadTypeDoc, c6GoodDoc] =
        Topology.addPatterns Topology.empty [c6GoodDoc] :=
  ⟨by decide,
   C6_typeerror_skipped Topology.empty c6BadTypeDoc [c6GoodDoc] (by decide)⟩

/-! ## C2 — matching and mutation -/

def c2Ip : InterfacePattern :=
  { interface := "Ethernet1", interfaces := ["Ethernet1"],
    device := some "any", port := some "any", ports := ["any"], tags := .l [] }

def c2Pat : Pattern :=
  { name := "p", definition := "d", node := none, vars := [("x", "y")],
    interfaces := [c2Ip] }

def c2Topo : Topology := { vars := [], globals := [c2Pat], nodes := [] }

def c2Node : Node :=
  { systemmac := some "m", neighbors := [("Ethernet1", [⟨"dev", "p1"⟩])] }

/-- Counterexample to C2: matching is not side-effect-free on the Topology.
Evaluating a candidate pattern executes `variables.update(self.variables)`
on the Topology's own `variables` dictionary, so after `match_node` the
topology's variables mapping has changed (here from `{}` to `{x: y}`). -/
theorem C2_counterexample :
    (Topology.match_node c2Topo c2Node).2.1.vars ≠ c2Topo.vars := by decide

/-- C2 (amended): matching never mutates the device's `Node` and never
mutates the Topology's pattern catalog (global list and bound-pattern
mapping); the Topology's `variables` mapping, however, may be mutated in
place by merging evaluated patterns' local variables into it. -/
theorem C2_match_frame (t : Topology) (n : Node) :
    (Topology.match_node t n).2.1.globals = t.globals
    ∧ (Topology.match_node t n).2.1.nodes = t.nodes
    ∧ (Topology.match_node t n).2.2 = n :=
  ⟨rfl, rfl, rfl⟩

/-! ## C10 — the empty pattern matches everything -/

/-- A pattern with no interface patterns enters the loop body zero times, so
`Pattern.match_node` returns `True` and leaves the variables untouched. -/
theorem emptyIntf_match (p : Pattern) (n : Node) (vars : VarMap)
    (h : p.interfaces = []) : Pattern.match_node p n vars = (.ok true, vars) := by
  unfold Pattern.match_node
  rw [h]
  rfl

/-- Every candidate with an empty interface list ends up in the result of
the candidate loop when that loop returns normally. -/
theorem matchLoop_mem_of_empty (n : Node) :
    ∀ (ps : List Pattern) (vars : VarMap) (r : List Pattern),
      (Topology.matchLoop n ps vars).1 = .ok r →
      ∀ q ∈ ps, q.interfaces = [] → q ∈ r := by
  intro ps
  induction ps with
  | nil => intro vars r _ q hq; simp at hq
  | cons p rest ih =>
    intro vars r h q hq hqi
    unfold Topology.matchLoop at h
    rcases hm : (Pattern.match_node p n vars).1 with e | b
    · rw [hm] at h; simp at h
    · rw [hm] at h
      rcases hr : (Topology.matchLoop n rest (Pattern.match_node p n vars).2).1
        with e | ms
      · rw [hr] at h; simp at h
      · rw [hr] at h
        simp only at h
        have hrms : r = if b then p :: ms else ms := by
          injection h with h2
          exact h2.symm
        rcases List.mem_cons.mp hq with rfl | hqr
        · have hmt : (Pattern.match_node q n vars).1 = .ok true := by
            rw [emptyIntf_match q n vars hqi]
          have hb : b = true := by
            have := hm.symm.trans hmt
            injection this
          subst hb
          simp [hrms]
        · have hin : q ∈ ms := ih (Pattern.match_node p n vars).2 ms hr q hqr hqi
          subst hrms
          cases b <;> simp [hin]


/-- C10: a Pattern whose Interface Pattern list is empty matches every
device — `Pattern.match_node` returns `True` for every node and variable
map (leaving the variables untouched) — and whenever such a pattern is among
the candidates `get_patterns` selects for a device and `Topology.match_node`
returns a list, the pattern is in that list, regardless of the device's
neighbor table. -/
theorem C10_empty_pattern_matches :
    (∀ (p : Pattern) (n : Node) (vars : VarMap), p.interfaces = [] →
       Pattern.match_node p n vars = (.ok true, vars))
    ∧ (∀ (t : Topology) (n : Node) (ms : List Pattern) (q : Pattern),
       (Topology.match_node t n).1 = .ok ms → q ∈ Topology.get_patterns t n →
       q.interfaces = [] → q ∈ ms) := by
  constructor
  · exact emptyIntf_match
  · intro t n ms q h hq hqi
    exact matchLoop_mem_of_empty n (Topology.get_patterns t n) t.vars ms h q hq hqi

def c10Pat : Pattern :=
  { name := "p", definition := "d", node := none, vars := [], interfaces := [] }

def c10Topo : Topology := { vars := [], globals := [c10Pat], nodes := [] }

def c10Node : Node :=
  { systemmac := some "m", neighbors := [("Ethernet1", [⟨"dev", "p1"⟩])] }

/-- Witness for C10 on a topology holding one empty global pattern. -/
theorem C10_empty_pattern_matches_witness :
    c10Pat.interfaces = []
    ∧ Pattern.match_node c10Pat c10Node [] = (.ok true, [])
    ∧ (Topology.match_node c10Topo c10Node).1 = .ok [c10Pat]
    ∧ c10Pat ∈ Topology.get_patterns c10Topo c10Node
    ∧ c10Pat ∈ [c10Pat] :=
  ⟨rfl, C10_empty_pattern_matches.1 c10Pat c10Node [] rfl, by decide, by decide,
   C10_empty_pattern_matches.2 c10Topo c10Node [c10Pat] c10Pat (by decide)
     (by decide) rfl⟩

/-! ## C8 — bound patterns are exclusive -/

/-- Every pattern in the result of the candidate loop is one of the
candidates. -/
theorem matchLoop_subset (n : Node) :
    ∀ (ps : List Pattern) (vars : VarMap) (r : List Pattern),
      (Topology.matchLoop n ps vars).1 = .ok r → ∀ q ∈ r, q ∈ ps := by
  intro ps
  induction ps with
  | nil =>
    intro vars r h q hq
    simp only [Topology.matchLoop] at h
    injection h with h
    subst h
    simp at hq
  | cons p rest ih =>
    intro vars r h q hq
    unfold Topology.matchLoop at h
    rcases hm : (Pattern.match_node p n vars).1 with e | b
    · rw [hm] at h; simp at h
    · rw [hm] at h
      rcases hr : (Topology.matchLoop n rest (Pattern.match_node p n vars).2).1
        with e | ms
      · rw [hr] at h; simp at h
      · rw [hr] at h
        simp only at h
        have hrms : r = if b then p :: ms else ms := by
          injection h with h2
          exact h2.symm
        subst hrms
        have hsub : ∀ x ∈ ms, x ∈ rest := ih _ ms hr
        cases b with
        | false =>
          simp only [Bool.false_eq_true, if_false] at hq
          exact List.mem_cons_of_mem _ (hsub q hq)
        | true =>
          simp only [if_true] at hq
          rcases List.mem_cons.mp hq with rfl | hx
          · exact List.mem_cons_self _ _
          · exact List.mem_cons_of_mem _ (hsub q hx)

/-- C8: a device whose identity is a key of the bound-pattern mapping is
matched only against its bound pattern: `get_patterns` returns exactly the
one-element list holding it, and every pattern `match_node` returns for the
device is that bound pattern — no global pattern is evaluated or returned.
A device whose identity is not bound gets the full ordered global list. -/
theorem C8_bound_pattern_exclusive (t : Topology) (n : Node) :
    (∀ e, t.nodes.find? (fun x => decide (x.1 = n.systemmac)) = some e →
       Topology.get_patterns t n = [e.2]
       ∧ ∀ ms, (Topology.match_node t n).1 = .ok ms → ∀ q ∈ ms, q = e.2)
    ∧ (t.nodes.find? (fun x => decide (x.1 = n.systemmac)) = none →
       Topology.get_patterns t n = t.globals) := by
  constructor
  · intro e he
    have hg : Topology.get_patterns t n = [e.2] := by
      unfold Topology.get_patterns
      rw [he]
    refine ⟨hg, ?_⟩
    intro ms h q hq
    have hmem := matchLoop_subset n (Topology.get_patterns t n) t.vars ms h q hq
    rw [hg] at hmem
    simpa using hmem
  · intro he
    unfold Topology.get_patterns
    rw [he]

def c8Bound : Pattern :=
  { name := "b", definition := "d", node := some "m", vars := [],
    interfaces := [] }

def c8Glob : Pattern :=
  { name := "g", definition := "d", node := none, vars := [], interfaces := [] }

def c8Topo : Topology :=
  { vars := [], globals := [c8Glob], nodes := [(some "m", c8Bound)] }

def c8Node : Node := { systemmac := some "m", neighbors := [] }

/-- Witness for C8: a bound device sees only its bound pattern even though
the global pattern would also match. -/
theorem C8_bound_pattern_exclusive_witness :
    c8Topo.nodes.find? (fun x => decide (x.1 = c8Node.systemmac)) =
      some (some "m", c8Bound)
    ∧ Topology.get_patterns c8Topo c8Node = [c8Bound]
    ∧ (Topology.match_node c8Topo c8Node).1 = .ok [c8Bound]
    ∧ ∀ q ∈ [c8Bound], q = c8Bound :=
  ⟨by decide,
   ((C8_bound_pattern_exclusive c8Topo c8Node).1 (some "m", c8Bound)
      (by decide)).1,
   by decide,
   ((C8_bound_pattern_exclusive c8Topo c8Node).1 (some "m", c8Bound)
      (by decide)).2 [c8Bound] (by decide)⟩

/-! ## C1 — the `None`-device short circuit -/

def c1IpAny : InterfacePattern :=
  { interface := "Ethernet1", interfaces := ["Ethernet1"],
    device := some "any", port := some "any", ports := ["any"], tags := .l [] }

def c1IpNone : InterfacePattern :=
  { interface := "Ethernet1", interfaces := ["Ethernet1"],
    device := none, port := none, ports := [], tags := .l [] }

def c1Pat : Pattern :=
  { name := "p", definition := "d", node := none, vars := [],
    interfaces := [c1IpAny, c1IpNone] }

def c1Node : Node :=
  { systemmac := some "m", neighbors := [("Ethernet1", [⟨"dev", "p1"⟩])] }

/-- Counterexample to C1: the short-circuit consults the *working* neighbor
table, not the original one.  Here the first interface pattern consumes
`Ethernet1`, so the second — `None`-device on the same name — returns `True`
although `Ethernet1` is present in the device's original neighbor table
(the claim predicts `False`). -/
theorem C1_counterexample :
    Pattern.match_node c1Pat c1Node [] = (.ok true, [])
    ∧ tblMem c1Node.neighbors "Ethernet1" = true := by
  refine ⟨by decide, by decide⟩

/-- Reaching a `None`-device interface pattern after successfully consuming
a prefix short-circuits `goMatch`: the result is decided by the working
table the prefix left behind, independently of the remaining interface
patterns. -/
theorem goMatch_consume (p : Pattern) (ip : InterfacePattern)
    (post : List InterfacePattern) (hdev : ip.device = none) :
    ∀ (pre : List InterfacePattern) (nbrs : NbrTable) (vars : VarMap)
      (nbrs2 : NbrTable) (vars2 : VarMap),
      Pattern.consumePre p pre nbrs vars = some (nbrs2, vars2) →
      Pattern.goMatch p (pre ++ ip :: post) nbrs vars =
        (.ok (!(tblMem nbrs2 ip.interface)), vars2) := by
  intro pre
  induction pre with
  | nil =>
    intro nbrs vars nbrs2 vars2 h
    simp only [Pattern.consumePre, Option.some.injEq, Prod.mk.injEq] at h
    obtain ⟨h1, h2⟩ := h
    subst h1
    subst h2
    simp only [List.nil_append]
    unfold Pattern.goMatch
    rw [if_pos hdev]
  | cons q pre ih =>
    intro nbrs vars nbrs2 vars2 h
    unfold Pattern.consumePre at h
    by_cases hq : q.device = none
    · rw [if_pos hq] at h
      simp at h
    · rw [if_neg hq] at h
      rcases hm : q.match_neighbors nbrs (varUpdate vars p.vars) with e | ms
      · rw [hm] at h
        simp at h
      · rw [hm] at h
        cases ms with
        | nil => simp at h
        | cons m mrest =>
          simp only at h
          simp only [List.cons_append]
          unfold Pattern.goMatch
          rw [if_neg hq, hm]
          exact ih _ _ _ _ h

/-- C1 (amended): when `Pattern.match_node`, scanning Interface Patterns in
declaration order, reaches an Interface Pattern whose device specifier is
`None`, it immediately returns — bypassing all remaining Interface
Patterns — a result determined solely by whether that Interface Pattern's
literal interface name is absent from the *current working* neighbor table
(the original table minus the interfaces consumed by the preceding
Interface Patterns), true if absent and false if present. -/
theorem C1_none_device_short_circuit (p : Pattern)
    (pre post : List InterfacePattern) (ip : InterfacePattern) (n : Node)
    (vars : VarMap) (nbrs2 : NbrTable) (vars2 : VarMap)
    (hif : p.interfaces = pre ++ ip :: post)
    (hpre : Pattern.consumePre p pre n.neighbors vars = some (nbrs2, vars2))
    (hdev : ip.device = none) :
    Pattern.match_node p n vars = (.ok (!(tblMem nbrs2 ip.interface)), vars2) := by
  unfold Pattern.match_node
  rw [hif]
  exact goMatch_consume p ip post hdev pre n.neighbors vars nbrs2 vars2 hpre

/-- Witness for C1 (amended) at the counterexample's inputs: the prefix
consumes `Ethernet1`, leaving an empty working table, so the short circuit
returns `True`. -/
theorem C1_none_device_short_circuit_witness :
    Pattern.consumePre c1Pat [c1IpAny] c1Node.neighbors [] = some ([], [])
    ∧ c1IpNone.device = none
    ∧ Pattern.match_node c1Pat c1Node [] =
        (.ok (!(tblMem ([] : NbrTable) "Ethernet1")), []) :=
  ⟨by decide, rfl,
   C1_none_device_short_circuit c1Pat [c1IpAny] [] c1IpNone c1Node [] [] []
     rfl (by decide) rfl⟩

/-! ## C4 — allocation idempotence -/

/-- A successful lookup returns the first key whose entry holds the node's
identity; in particular the returned key is a key of the pool. -/
theorem lookup_mem (p : Pool) (n : Node) (s : String)
    (h : Resources.lookup p n = some s) :
    ∃ kv ∈ p, kv.1 = s ∧ kv.2 = n.systemmac := by
  unfold Resources.lookup at h
  rcases hfil : p.filter (fun kv => decide (kv.2 = n.systemmac)) with _ | ⟨a, l⟩
  · rw [hfil] at h
    simp at h
  · rw [hfil] at h
    simp only [List.map_cons, List.head?_cons, Option.some.injEq] at h
    have ha : a ∈ p.filter (fun kv => decide (kv.2 = n.systemmac)) := by
      rw [hfil]
      exact List.mem_cons_self a l
    rw [List.mem_filter] at ha
    exact ⟨a, ha.1, h, of_decide_eq_true ha.2⟩

/-- A failed lookup means no entry holds the node's identity. -/
theorem lookup_none_val (p : Pool) (n : Node)
    (h : Resources.lookup p n = none) :
    ∀ kv ∈ p, kv.2 ≠ n.systemmac := by
  intro kv hkv hkv2
  unfold Resources.lookup at h
  have hmem : kv ∈ p.filter (fun e => decide (e.2 = n.systemmac)) :=
    List.mem_filter.mpr ⟨hkv, by simp [hkv2]⟩
  rcases hfil : p.filter (fun e => decide (e.2 = n.systemmac)) with _ | ⟨a, l⟩
  · rw [hfil] at hmem
    simp at hmem
  · rw [hfil] at h
    simp at h

/-- After claiming key `k` in a pool none of whose entries held `v`, the
entries holding `v` are exactly the rewritten occurrences of `k`. -/
theorem filter_poolSet (p : Pool) (k : String) (v : Option String)
    (hnone : ∀ e ∈ p, e.2 ≠ v) :
    (Resources.poolSet p k v).filter (fun e => decide (e.2 = v)) =
      (p.filter (fun e => decide (e.1 = k))).map (fun _ => (k, v)) := by
  induction p with
  | nil => rfl
  | cons a t ih =>
    have hrec := ih (fun e he => hnone e (List.mem_cons_of_mem a he))
    by_cases h1 : a.1 = k
    · simp [Resources.poolSet, List.filter_cons, h1] at hrec ⊢
      exact hrec
    · have h2 : a.2 ≠ v := hnone a (List.mem_cons_self a t)
      simp [Resources.poolSet, List.filter_cons, h1, h2] at hrec ⊢
      exact hrec

/-- C4 (amended): `Resources.allocate` is idempotent for every pool whose
keys are non-empty strings: if a call returns key `k` leaving pool state
`p1`, a second call for the same device returns `k` again and leaves `p1`
unchanged.  (The restriction excludes the empty-string key, which Python
truthiness makes `allocate` ignore when `lookup` returns it.) -/
theorem C4_allocate_idempotent (p : Pool) (n : Node) (k : String) (p1 : Pool)
    (hk : ∀ kv ∈ p, kv.1 ≠ "")
    (h : Resources.allocate p n = (.ok k, p1)) :
    Resources.allocate p1 n = (.ok k, p1) := by
  unfold Resources.allocate at h
  cases hl : Resources.lookup p n with
  | some s =>
    rw [hl] at h
    have h2 : (if s = "" then Resources.allocFresh p n else (Except.ok s, p)) =
        (Except.ok k, p1) := h
    obtain ⟨kv, hkvmem, hkv1, _⟩ := lookup_mem p n s hl
    have hs : s ≠ "" := hkv1 ▸ hk kv hkvmem
    rw [if_neg hs] at h2
    simp only [Prod.mk.injEq, Except.ok.injEq] at h2
    obtain ⟨hks, hp⟩ := h2
    rw [← hp, ← hks]
    have hred : Resources.allocate p n =
        if s = "" then Resources.allocFresh p n else (Except.ok s, p) := by
      unfold Resources.allocate
      rw [hl]
    rw [hred, if_neg hs]
  | none =>
    rw [hl] at h
    have h2 : Resources.allocFresh p n = (Except.ok k, p1) := h
    unfold Resources.allocFresh at h2
    cases hf : p.find? (fun kv => kv.2.isNone) with
    | none =>
      rw [hf] at h2
      simp at h2
    | some kv =>
      rw [hf] at h2
      have h3 : ((Except.ok kv.1 : Except ResErr String),
          Resources.poolSet p kv.1 n.systemmac) = (Except.ok k, p1) := h2
      have hkmem : kv ∈ p := List.mem_of_find?_eq_some hf
      have hknil : kv.1 ≠ "" := hk kv hkmem
      have hnone : ∀ e ∈ p, e.2 ≠ n.systemmac := lookup_none_val p n hl
      simp only [Prod.mk.injEq, Except.ok.injEq] at h3
      obtain ⟨hkk, hset⟩ := h3
      rw [← hset, ← hkk]
      have hlp1 :
          Resources.lookup (Resources.poolSet p kv.1 n.systemmac) n =
            some kv.1 := by
        unfold Resources.lookup
        rw [filter_poolSet p kv.1 n.systemmac hnone]
        rcases hfil2 : p.filter (fun e => decide (e.1 = kv.1)) with _ | ⟨a, l⟩
        · exfalso
          have hin : kv ∈ p.filter (fun e => decide (e.1 = kv.1)) :=
            List.mem_filter.mpr ⟨hkmem, by simp⟩
          rw [hfil2] at hin
          simp at hin
        · rw [hfil2]
          rfl
      have hred : Resources.allocate (Resources.poolSet p kv.1 n.systemmac) n =
          if kv.1 = "" then
            Resources.allocFresh (Resources.poolSet p kv.1 n.systemmac) n
          else (Except.ok kv.1, Resources.poolSet p kv.1 n.systemmac) := by
        unfold Resources.allocate
        rw [hlp1]
      rw [hred, if_neg hknil]

def c4Pool : Pool := [("", some "aa"), ("k1", none), ("k2", none)]

def c4Node : Node := { systemmac := some "aa", neighbors := [] }

/-- Counterexample to C4 as stated (for *every* pool state): on a pool whose
empty-string key already holds the device's identity, `lookup` returns the
empty string, Python truthiness treats it as "not found", and each call
claims a fresh key — the two calls return different keys and the second
call mutates the document again. -/
theorem C4_counterexample :
    (Resources.allocate c4Pool c4Node).1 = .ok "k1"
    ∧ (Resources.allocate (Resources.allocate c4Pool c4Node).2 c4Node).1 =
        .ok "k2"
    ∧ (Resources.allocate (Resources.allocate c4Pool c4Node).2 c4Node).2 ≠
        (Resources.allocate c4Pool c4Node).2 := by
  refine ⟨by decide, by decide, by decide⟩

def c4WPool : Pool := [("k1", none)]

/-- Witness for C4 (amended) on a one-key pool with a non-empty key. -/
theorem C4_allocate_idempotent_witness :
    (∀ kv ∈ c4WPool, kv.1 ≠ "")
    ∧ Resources.allocate c4WPool c4Node = (.ok "k1", [("k1", some "aa")])
    ∧ Resources.allocate [("k1", some "aa")] c4Node =
        (.ok "k1", [("k1", some "aa")]) :=
  ⟨by decide, by decide,
   C4_allocate_idempotent c4WPool c4Node "k1" [("k1", some "aa")] (by decide)
     (by decide)⟩

/-! ## C3 — the acceptance rule of `match_neighbors` -/

/-- The head of a filtered list is the first element satisfying the
predicate. -/
theorem filter_head?_eq_find? (pr : String → Bool) :
    ∀ l : List String, (l.filter pr).head? = l.find? pr := by
  intro l
  induction l with
  | nil => rfl
  | cons a t ih =>
    by_cases h : pr a
    · rw [List.filter_cons, if_pos h, List.find?_cons_of_pos _ h]
      rfl
    · rw [List.filter_cons, if_neg h, List.find?_cons_of_neg _ (by simpa using h)]
      exact ih

/-- When the candidate loop returns normally, every candidate's neighbor
scan returned normally and the result is exactly the candidates whose scan
accepted. -/
theorem collect_ok (ip : InterfacePattern) (vars : VarMap) (nbrs : NbrTable) :
    ∀ (l ms : List String),
      InterfacePattern.collectMatches ip vars nbrs l = .ok ms →
      (∀ i ∈ l, ∃ b, InterfacePattern.scanNbrs ip vars (tblGet nbrs i) = .ok b)
      ∧ ms = l.filter
          (fun i =>
            decide (InterfacePattern.scanNbrs ip vars (tblGet nbrs i) = .ok true)) := by
  intro l
  induction l with
  | nil =>
    intro ms h
    refine ⟨by simp, ?_⟩
    simp only [InterfacePattern.collectMatches] at h
    injection h with h
    exact h.symm
  | cons i rest ih =>
    intro ms h
    unfold InterfacePattern.collectMatches at h
    rcases hs : InterfacePattern.scanNbrs ip vars (tblGet nbrs i) with e | b
    · rw [hs] at h
      simp at h
    · rw [hs] at h
      rcases hc : InterfacePattern.collectMatches ip vars nbrs rest with e | ms2
      · rw [hc] at h
        simp at h
      · rw [hc] at h
        have h2 : (Except.ok (if b then i :: ms2 else ms2) :
            Except PyErr (List String)) = .ok ms := h
        have hms : ms = if b then i :: ms2 else ms2 := by
          injection h2 with h2
          exact h2.symm
        obtain ⟨ha, hf⟩ := ih ms2 hc
        refine ⟨?_, ?_⟩
        · intro x hx
          rcases List.mem_cons.mp hx with rfl | hx2
          · exact ⟨b, hs⟩
          · exact ha x hx2
        · rw [List.filter_cons]
          have hpred :
              (decide (InterfacePattern.scanNbrs ip vars (tblGet nbrs i) =
                .ok true)) = b := by
            rw [hs]
            cases b
            · decide
            · decide
          rw [hpred, hms, hf]

/-- C3: when `match_neighbors` returns a result list,

* the list has at most one element;
* for a non-wildcard interface specifier, a non-empty result means every
  declared interface name present in the working table had an accepting
  neighbor, and one failed candidate forces the empty result;
* for the wildcard specifier one accepting interface suffices for a
  non-empty result;
* a returned interface is the first matched candidate. -/
theorem C3_match_neighbors_rule :
    ∀ (ip : InterfacePattern) (nbrs : NbrTable) (vars : VarMap)
      (r : List String),
      InterfacePattern.match_neighbors ip nbrs vars = .ok r →
      r.length ≤ 1
      ∧ (ip.interface ≠ "any" → r ≠ [] →
          ∀ x ∈ InterfacePattern.candidates ip nbrs,
            InterfacePattern.scanNbrs ip vars (tblGet nbrs x) = .ok true)
      ∧ (ip.interface ≠ "any" →
          (∃ x ∈ InterfacePattern.candidates ip nbrs,
            InterfacePattern.scanNbrs ip vars (tblGet nbrs x) = .ok false) →
          r = [])
      ∧ (ip.interface = "any" →
          (∃ x ∈ tblKeys nbrs,
            InterfacePattern.scanNbrs ip vars (tblGet nbrs x) = .ok true) →
          r ≠ [])
      ∧ (∀ x, r = [x] →
          (InterfacePattern.candidates ip nbrs).find?
            (fun i =>
              decide (InterfacePattern.scanNbrs ip vars (tblGet nbrs i) =
                .ok true)) = some x) := by
  intro ip nbrs vars r h
  unfold InterfacePattern.match_neighbors at h
  rcases hc : InterfacePattern.collectMatches ip vars nbrs
      (InterfacePattern.candidates ip nbrs) with e | ms
  · rw [hc] at h
    simp at h
  · rw [hc] at h
    have h2 : (Except.ok ((if ms ≠ InterfacePattern.candidates ip nbrs ∧
        ip.interface ≠ "any" then [] else ms).take 1) :
        Except PyErr (List String)) = .ok r := h
    have hr : r = (if ms ≠ InterfacePattern.candidates ip nbrs ∧
        ip.interface ≠ "any" then [] else ms).take 1 := by
      injection h2 with h2
      exact h2.symm
    obtain ⟨hall, hfil⟩ :=
      collect_ok ip vars nbrs (InterfacePattern.candidates ip nbrs) ms hc
    refine ⟨?_, ?_, ?_, ?_, ?_⟩
    · rw [hr, List.length_take]
      exact Nat.min_le_left _ _
    · intro hne hrne x hx
      by_cases hcond : ms ≠ InterfacePattern.candidates ip nbrs ∧
          ip.interface ≠ "any"
      · rw [if_pos hcond] at hr
        simp at hr
        exact absurd hr hrne
      · rw [if_neg hcond] at hr
        have hmseq : ms = InterfacePattern.candidates ip nbrs := by
          by_contra hcontra
          exact hcond ⟨hcontra, hne⟩
        have hself : (InterfacePattern.candidates ip nbrs).filter
            (fun i =>
              decide (InterfacePattern.scanNbrs ip vars (tblGet nbrs i) =
                .ok true)) = InterfacePattern.candidates ip nbrs :=
          (hmseq.symm.trans hfil).symm
        exact of_decide_eq_true (List.filter_eq_self.mp hself x hx)
    · intro hne hex
      obtain ⟨x, hx, hfalse⟩ := hex
      have hpx : (decide (InterfacePattern.scanNbrs ip vars (tblGet nbrs x) =
          .ok true)) = false := by
        rw [hfalse]
        decide
      have hms : ms ≠ InterfacePattern.candidates ip nbrs := by
        intro heq2
        have hself : (InterfacePattern.candidates ip nbrs).filter
            (fun i =>
              decide (InterfacePattern.scanNbrs ip vars (tblGet nbrs i) =
                .ok true)) = InterfacePattern.candidates ip nbrs :=
          (heq2.symm.trans hfil).symm
        have hx2 := List.filter_eq_self.mp hself x hx
        simp [hpx] at hx2
      rw [if_pos ⟨hms, hne⟩] at hr
      simpa using hr
    · intro hany hex
      obtain ⟨x, hx, htrue⟩ := hex
      have hcond : ¬(ms ≠ InterfacePattern.candidates ip nbrs ∧
          ip.interface ≠ "any") := by
        intro hcontra
        exact hcontra.2 hany
      rw [if_neg hcond] at hr
      have hxc : x ∈ InterfacePattern.candidates ip nbrs := by
        unfold InterfacePattern.candidates
        rw [if_pos hany]
        exact hx
      have hxf : x ∈ (InterfacePattern.candidates ip nbrs).filter
          (fun i =>
            decide (InterfacePattern.scanNbrs ip vars (tblGet nbrs i) =
              .ok true)) := by
        refine List.mem_filter.mpr ⟨hxc, ?_⟩
        rw [htrue]
        decide
      rw [← hfil] at hxf
      intro hrnil
      rw [hrnil] at hr
      cases ms with
      | nil => simp at hxf
      | cons a t => simp at hr
    · intro x hrx
      by_cases hcond : ms ≠ InterfacePattern.candidates ip nbrs ∧
          ip.interface ≠ "any"
      · rw [if_pos hcond] at hr
        rw [hrx] at hr
        simp at hr
      · rw [if_neg hcond] at hr
        rw [hrx] at hr
        have hms : ms.head? = some x := by
          cases ms with
          | nil => simp at hr
          | cons a t =>
            simp at hr
            simp [hr]
        rw [← filter_head?_eq_find?, ← hfil]
        exact hms

def c3Ip : InterfacePattern :=
  { interface := "any", interfaces := ["any"],
    device := some "exact(|spine1|)", port := some "any", ports := ["any"],
    tags := .l [] }

def c3Nbrs : NbrTable := [("Ethernet3", [⟨"spine1", "Ethernet10"⟩])]

/-- Witness for C3 at the wildcard example of the specification. -/
theorem C3_match_neighbors_rule_witness :
    InterfacePattern.match_neighbors c3Ip c3Nbrs [] = .ok ["Ethernet3"]
    ∧ (["Ethernet3"] : List String).length ≤ 1 :=
  ⟨by decide,
   (C3_match_neighbors_rule c3Ip c3Nbrs [] ["Ethernet3"] (by decide)).1⟩
